import Mathlib

/-!
Verification of the query-building and result-sanitization engine of the
`dbs-back` genealogy search API (`bhs_api/fsearch.py`), against its
natural-language specification.

The Python source is shallowly embedded: Python `str` operations are
re-implemented as structurally recursive functions over `List Char`
(so that every definition evaluates inside the kernel), Python dicts
become association lists with insertion-order-preserving update, and
`flask.abort` / uncaught Python exceptions become an `Except` error type.
-/

namespace BhsFsearch

/-! ## Python string primitives -/

/-- Python `str.lower()` restricted to ASCII (all inputs of interest are ASCII). -/
def pyLower (s : String) : String := ⟨s.data.map Char.toLower⟩

/-- Python `str.upper()` restricted to ASCII. -/
def pyUpper (s : String) : String := ⟨s.data.map Char.toUpper⟩

/-- Python `s.endswith(suffix)`. -/
def pyEndsWith (s suf : String) : Bool := List.isSuffixOf suf.data s.data

/-- Whether `sub` occurs as a contiguous sublist of the second argument. -/
def listHasInfix (sub : List Char) : List Char → Bool
  | [] => sub.isEmpty
  | c :: rest => List.isPrefixOf sub (c :: rest) || listHasInfix sub rest

/-- Python `sub in s` (substring containment). -/
def pyIn (sub s : String) : Bool := listHasInfix sub.data s.data

/-- Python `c in s` for a single character. -/
def pyHasChar (s : String) (c : Char) : Bool := s.data.contains c

/-- Split a character list on a single separator character, Python
`str.split(sep)` style: `''.split(';') == ['']`, separators at the ends
produce empty fields. -/
def splitChar (sep : Char) : List Char → List (List Char)
  | [] => [[]]
  | c :: rest =>
    if c = sep then [] :: splitChar sep rest
    else
      match splitChar sep rest with
      | [] => [[c]]
      | g :: gs => (c :: g) :: gs

/-- Python `s.split(sep)` for a one-character separator. -/
def pySplit (s : String) (sep : Char) : List String :=
  (splitChar sep s.data).map fun l => ⟨l⟩

/-- The part of `l` strictly before the first occurrence of the pattern
`sep`; the whole list when `sep` does not occur. -/
def takeUntilSub (sep : List Char) : List Char → List Char
  | [] => []
  | c :: rest => if List.isPrefixOf sep (c :: rest) then [] else c :: takeUntilSub sep rest

/-- Python `s.split(sep)[0]` for a multi-character separator: the portion
of `s` before the first occurrence of `sep` (all of `s` when absent). -/
def pySplitHead (s sep : String) : String := ⟨takeUntilSub sep.data s.data⟩

/-- ASCII whitespace, as stripped by Python `int(str)`. -/
def isSpaceChar (c : Char) : Bool := c == ' ' || c == '\t' || c == '\n' || c == '\r'

/-- Decimal value of a digit list. -/
def digitsToNat (l : List Char) : Nat :=
  l.foldl (fun a c => a * 10 + (c.toNat - 48)) 0

/-- Python `int(s)` on a string: strip whitespace, optional sign, then
decimal digits; `none` models the `ValueError` raised otherwise. -/
def parsePyInt (s : String) : Option Int :=
  let l := ((s.data.dropWhile isSpaceChar).reverse.dropWhile isSpaceChar).reverse
  let p : Int × List Char :=
    match l with
    | '-' :: rest => (-1, rest)
    | '+' :: rest => (1, rest)
    | _ => (1, l)
  if p.2.isEmpty then none
  else if p.2.all (fun c => c.isDigit) then some (p.1 * (digitsToNat p.2 : Int))
  else none

/-! ## Python dict as an association list

Python dicts preserve insertion order; updating an existing key keeps its
position, new keys are appended. -/

/-- Python dict assignment `d[k] = v`: an existing key keeps its position, a
new key is appended (keys of a Python dict are unique, so replacing the
first occurrence is exact). -/
def dictSet {α : Type} : List (String × α) → String → α → List (String × α)
  | [], k, v => [(k, v)]
  | p :: rest, k, v => if p.1 == k then (k, v) :: rest else p :: dictSet rest k v

/-- Python dict lookup `d.get(k)` / `d[k]`. -/
def dictGet {α : Type} : List (String × α) → String → Option α
  | [], _ => none
  | p :: rest, k => if p.1 == k then some p.2 else dictGet rest k

/-- Python dict deletion `del d[k]` (no error when absent; `clean_person`
catches the `KeyError`). -/
def dictDel {α : Type} : List (String × α) → String → List (String × α)
  | [], _ => []
  | p :: rest, k => if p.1 == k then rest else p :: dictDel rest k

/-! ## Data model: errors, query values, person records -/

/-- Failure modes of the engine as observed by a caller: `abort400` is
`flask.abort(400, msg)` (the spec's `InvalidArgument`), `keyError` a
Python `KeyError` escaping `build_query`, `valueError` an uncaught
`ValueError` from `int()`, `indexError` an uncaught `IndexError` from
`value[0]` on an empty multi-value list. -/
inductive Err where
  | abort400 (msg : String)
  | keyError (key : String)
  | valueError (s : String)
  | indexError
  deriving DecidableEq, Repr

/-- An atomic mongo query value: literal equality (`vstr`/`vint`/`vbool`),
`regexMatch s` for `re.compile('^' + s)` produced by the `;prefix`
modifier, `range mn mx` for `{'$gte': mn, '$lte': mx}`, and
`existsFalse` for `{'$exists': False}`. -/
inductive QAtom where
  | vstr (s : String)
  | vint (n : Int)
  | vbool (b : Bool)
  | regexMatch (s : String)
  | range (mn mx : Int)
  | existsFalse
  deriving DecidableEq, Repr

/-- A mongo query clause value: either an atom, or (under the `'$or'` key)
a disjunction of single-field documents. -/
inductive QVal where
  | atom (a : QAtom)
  | orq (disj : List (String × QAtom))
  deriving DecidableEq, Repr

/-- The compiled filter expression: a mongo query document. -/
abbrev Query := List (String × QVal)

/-- A stored field value of a person document. `parr` covers the integer
arrays (`marriage_years`). -/
inductive PVal where
  | pstr (s : String)
  | pint (n : Int)
  | pbool (b : Bool)
  | parr (l : List Int)
  deriving DecidableEq, Repr

/-- A person document from the `persons` collection. -/
abbrev Person := List (String × PVal)

/-! ## build_query (fsearch.py lines 14-159) -/

/-- Constant `MAX_RESULTS = 30  # aka chunk size`. -/
def MAX_RESULTS : Int := 30

/-- Constant `MAX_COUNT_RESULTS = -1`: `-1` means count all results. -/
def MAX_COUNT_RESULTS : Int := -1

/-- The allow-list `ARGS_TO_INDEX` mapping search arguments to indexed
field names (`'place'` maps to the dummy field name `'filler_lc'`). -/
def ARGS_TO_INDEX : List (String × String) :=
  [("first_name", "name_lc.0"),
   ("last_name", "name_lc.1"),
   ("sex", "sex"),
   ("birth_place", "BIRT_PLAC_lc"),
   ("marriage_place", "MARR_PLAC_lc"),
   ("tree_number", "tree_num"),
   ("death_place", "DEAT_PLAC_lc"),
   ("place", "filler_lc")]

/-- Function `_generate_year_range(year, fudge_factor=0)` as a `(min, max)` pair.
The source computes `int(str(year ± fudge_factor))`, and `int(str(n))`
is the identity on Python integers, so the round-trip is elided. -/
def _generate_year_range (year : Int) (fudge_factor : Int := 0) : Int × Int :=
  (year - fudge_factor, year + fudge_factor)

/-- The state built by the classification pass of `build_query`
(lines 42-62): the names-and-places bucket, the years bucket, the
optional sex and individual id, and the `only_deceased` flag. -/
structure Classified where
  nap : List (String × String)
  years : List (String × String)
  sex : Option String
  individual_id : Option String
  only_deceased : Bool
  deriving DecidableEq, Repr

/-- One iteration of the classification loop (lines 50-62). -/
def classifyStep (st : Classified) (kv : String × String) : Classified :=
  let k := kv.1
  let v := kv.2
  let st1 := if pyEndsWith k "place" || pyIn "_year" k then
    { st with only_deceased := true } else st
  if pyEndsWith k "name" || pyEndsWith k "place" then
    { st1 with nap := dictSet st1.nap k (pyLower v) }
  else if pyIn "_year" k then
    { st1 with years := dictSet st1.years k v }
  else if k == "sex" then
    if pyLower v == "m" || pyLower v == "f" then { st1 with sex := some (pyUpper v) }
    else st1
  else if k == "individual_id" then
    { st1 with individual_id := some v }
  else st1

/-- The classification pass over the whole search dict. -/
def classify (search_dict : List (String × String)) : Classified :=
  search_dict.foldl classifyStep ⟨[], [], none, none, false⟩

/-- Resolution of one names-and-places entry (lines 67-91): split the
(already lower-cased) value on `';'`; `first_name` is always an exact
match; otherwise `;prefix` compiles to an anchored regex, `;phonetic`
re-targets the field (`split('_lc')[0] + 'S'`) with the soundex code, and
an unrecognized modifier is dropped. -/
def resolveEntry (soundex : String → String) (arg field_name value : String) :
    String × QAtom :=
  let split_arg := pySplit value ';'
  let search_str := split_arg.headD ""
  if arg == "first_name" then (field_name, .vstr search_str)
  else
    match split_arg with
    | _ :: modif :: _ =>
      if modif == "prefix" then (field_name, .regexMatch search_str)
      else if modif == "phonetic" then
        (pySplitHead field_name "_lc" ++ "S", .vstr (soundex search_str))
      else (field_name, .vstr search_str)
    | _ => (field_name, .vstr search_str)

/-- The names-and-places resolution loop (lines 65-91); the allow-list
lookup `ARGS_TO_INDEX[search_arg]` raises `KeyError` on a missing key. -/
def resolveNamesPlaces (soundex : String → String) :
    List (String × String) → Except Err (List (String × (String × QAtom)))
  | [] => .ok []
  | (arg, v) :: rest =>
    match dictGet ARGS_TO_INDEX arg with
    | none => .error (.keyError arg)
    | some field_name =>
      match resolveNamesPlaces soundex rest with
      | .error e => .error e
      | .ok rest_resolved => .ok ((arg, resolveEntry soundex arg field_name v) :: rest_resolved)

/-- Resolution of one year entry (lines 95-111): `"Y:F"` parses both
parts (aborting 400 with `'Year and fudge factor must be integers'` on
failure), a bare `"Y"` parses one (aborting 400 with
`'Year must be an integer'`). -/
def resolveYear1 (s : String) : Except Err (Int × Int) :=
  if pyHasChar s ':' then
    match pySplit s ':' with
    | y :: f :: _ =>
      match parsePyInt y, parsePyInt f with
      | some year, some fudge => .ok (_generate_year_range year fudge)
      | _, _ => .error (.abort400 "Year and fudge factor must be integers")
    | _ => .error (.abort400 "Year and fudge factor must be integers")
  else
    match parsePyInt s with
    | some year => .ok (_generate_year_range year)
    | none => .error (.abort400 "Year must be an integer")

/-- The years resolution loop (lines 94-111). -/
def resolveYears : List (String × String) → Except Err (List (String × (Int × Int)))
  | [] => .ok []
  | (arg, v) :: rest =>
    match resolveYear1 v with
    | .error e => .error e
    | .ok r =>
      match resolveYears rest with
      | .error e => .error e
      | .ok rest_resolved => .ok ((arg, r) :: rest_resolved)

/-- Filter assembly for years (lines 116-126): only the three known year
attributes are filtered on, `marriage_year` targeting the plural array
field `marriage_years`. -/
def assembleYears (sq : Query) (years : List (String × (Int × Int))) : Query :=
  years.foldl
    (fun sq it =>
      if it.1 == "marriage_year" || it.1 == "birth_year" || it.1 == "death_year" then
        let tgt := if it.1 == "marriage_year" then "marriage_years" else it.1
        dictSet sq tgt (.atom (.range it.2.1 it.2.2))
      else sq)
    sq

/-- Filter assembly for names and places (lines 131-145): the generic
`place` parameter expands into a `'$or'` disjunction over the three place
fields, suffixed `'S'` when the resolved field was the phonetic one and
`'_lc'` otherwise; every other parameter adds its single field clause. -/
def assembleNap (sq : Query) (nap : List (String × (String × QAtom))) : Query :=
  nap.foldl
    (fun sq pkv =>
      let param := pkv.1
      let k := pkv.2.1
      let v := pkv.2.2
      if param == "place" then
        let s := if pyEndsWith k "S" then "S" else "_lc"
        dictSet sq "$or"
          (.orq [("BIRT_PLAC" ++ s, v), ("MARR_PLAC" ++ s, v), ("DEAT_PLAC" ++ s, v)])
      else dictSet sq k (.atom v))
    sq

/-- The `tree_number` block (lines 147-154): parse the tree number
(aborting 400 on failure), set `tree_num`, and, when a truthy
`individual_id` was classified, set `id` as well. Nothing is removed
from the query built so far. -/
def addTreeNumber (search_dict : List (String × String)) (individual_id : Option String)
    (sq : Query) : Except Err Query :=
  match dictGet search_dict "tree_number" with
  | none => .ok sq
  | some tv =>
    match parsePyInt tv with
    | none => .error (.abort400 "Tree number must be an integer")
    | some n =>
      let sq := dictSet sq "tree_num" (.atom (.vint n))
      match individual_id with
      | some i => if i == "" then .ok sq else .ok (dictSet sq "id" (.atom (.vstr i)))
      | none => .ok sq

/-- Function `build_query(search_dict)` (lines 40-159): classification, names and
places resolution, years resolution, then assembly starting from the
implicit `{'archived': {'$exists': False}}` clause; `sex` is only added
when truthy, `deceased: True` is added last when the `only_deceased`
flag was set. -/
def build_query (soundex : String → String) (search_dict : List (String × String)) :
    Except Err Query :=
  let c := classify search_dict
  match resolveNamesPlaces soundex c.nap with
  | .error e => .error e
  | .ok nap =>
    match resolveYears c.years with
    | .error e => .error e
    | .ok years =>
      let sq : Query := [("archived", .atom .existsFalse)]
      let sq := assembleYears sq years
      let sq := match c.sex with
        | some s => if s == "" then sq else dictSet sq "sex" (.atom (.vstr s))
        | none => sq
      let sq := assembleNap sq nap
      match addTreeNumber search_dict c.individual_id sq with
      | .error e => .error e
      | .ok sq => .ok (if c.only_deceased then dictSet sq "deceased" (.atom (.vbool true)) else sq)

/-! ## Collection semantics

The spec treats the document store as an external collaborator with
`find`/`count`/`skip`/`limit` semantics; it is modelled as a list of
person documents filtered by a mongo-style matcher. -/

/-- Whether a stored value satisfies an atomic query value (mongo
semantics: literal equality, anchored-regex match on strings, inclusive
range with array fields matching element-wise). -/
def pvalMatches (pv : PVal) (a : QAtom) : Bool :=
  match a with
  | .vstr s => pv == .pstr s
  | .vint n =>
    match pv with
    | .pint m => m == n
    | .parr l => l.contains n
    | _ => false
  | .vbool b => pv == .pbool b
  | .regexMatch s =>
    match pv with
    | .pstr t => List.isPrefixOf s.data t.data
    | _ => false
  | .range mn mx =>
    match pv with
    | .pint m => decide (mn ≤ m) && decide (m ≤ mx)
    | .parr l => l.any (fun x => decide (mn ≤ x)) && l.any (fun x => decide (x ≤ mx))
    | _ => false
  | .existsFalse => false

/-- Whether a document satisfies one field clause. -/
def atomMatchesDoc (p : Person) (k : String) (a : QAtom) : Bool :=
  match a with
  | .existsFalse => (dictGet p k).isNone
  | a =>
    match dictGet p k with
    | some pv => pvalMatches pv a
    | none => false

/-- Whether a document satisfies the whole query (conjunction of clauses;
a `'$or'` clause is the disjunction of its single-field documents). -/
def queryMatches (q : Query) (p : Person) : Bool :=
  q.all fun kv =>
    match kv.2 with
    | .atom a => atomMatchesDoc p kv.1 a
    | .orq disj => disj.any fun fa => atomMatchesDoc p fa.1 fa.2

/-- The projection passed to `find` in `fsearch` (lines 194-210); mongo
includes `_id` unless excluded. -/
def PROJECTION_FIELDS : List String :=
  ["name", "parents", "partners", "siblings", "tree_num", "id", "sex", "tree_version",
   "Slug", "birth_year", "death_year", "BIRT_PLAC", "DEAT_PLAC", "deceased", "marriage_years"]

/-- Restrict a found document to the projection (plus the implicit `_id`). -/
def projectPerson (p : Person) : Person :=
  p.filter fun kv => kv.1 == "_id" || PROJECTION_FIELDS.contains kv.1

/-! ## clean_person (lines 225-254) -/

/-- The gedcom-to-API renaming table (lines 238-243). -/
def GEDCOM_RENAMES : List (String × String) :=
  [("BIRT_PLAC", "birth_place"),
   ("DEAT_PLAC", "death_place"),
   ("MARR_PLAC", "marriage_place"),
   ("MARR_DATE", "marriage_date"),
   ("OCCU", "occupation"),
   ("NOTE", "bio")]

/-- The move `person[api_key] = person.pop(db_key)` guarded by `try/except
KeyError`: move the value when the legacy key is present. -/
def renameStep (p : Person) (ab : String × String) : Person :=
  match dictGet p ab.1 with
  | some v => dictSet (dictDel p ab.1) ab.2 v
  | none => p

/-- Modelled from the spec: `LIVING_PERSON_WHITELISTED_KEYS`, an external
constant of `bhs_api.persons` (a module of this repository that is not
under `src/`); spec section 4.3 says it holds the name, the tree position
identifiers and the sex. -/
def LIVING_PERSON_WHITELISTED_KEYS : List String := ["name", "tree_num", "id", "sex"]

/-- Modelled from the spec: `is_living_person`, the external living-person
predicate of `bhs_api.persons` (a module of this repository that is not
under `src/`). Spec section 4.3: `is_living = !deceased AND
NOT(birth_year present AND (current_year - birth_year) >
LIVING_AGE_THRESHOLD)`; a missing `deceased` flag (Python `None`) is
falsy. -/
def is_living_person (currentYear threshold : Int) (deceased : Option Bool)
    (birth_year : Option Int) : Bool :=
  !(deceased.getD false) &&
    !(match birth_year with
      | some y => decide (currentYear - y > threshold)
      | none => false)

/-- Lookup `person.get('deceased')` coerced to the predicate's `bool|null` domain. -/
def pGetBool (p : Person) (k : String) : Option Bool :=
  match dictGet p k with
  | some (.pbool b) => some b
  | _ => none

/-- Lookup `person.get('birth_year')` coerced to the predicate's `int|null` domain. -/
def pGetInt (p : Person) (k : String) : Option Int :=
  match dictGet p k with
  | some (.pint n) => some n
  | _ => none

/-- Function `clean_person(person)` (lines 225-254): drop mongo's `_id`, rename the
gedcom fields, then, when the living-person predicate holds, strip every
key outside the whitelist. -/
def clean_person (currentYear threshold : Int) (person : Person) : Person :=
  let person := dictDel person "_id"
  let person := GEDCOM_RENAMES.foldl renameStep person
  if is_living_person currentYear threshold (pGetBool person "deceased")
      (pGetInt person "birth_year") then
    person.filter fun kv => LIVING_PERSON_WHITELISTED_KEYS.contains kv.1
  else person

/-! ## fsearch (lines 162-222) -/

/-- Function `build_search_dict(**kwargs)` inner loop: take the first element of
each multi-value list (`IndexError` when empty, mirrored by
`Err.indexError`) and abort 400 on a falsy first element. -/
def build_search_dict_go (acc : List (String × String)) :
    List (String × List String) → Except Err (List (String × String))
  | [] => .ok acc
  | (k, vs) :: rest =>
    match vs with
    | [] => .error .indexError
    | v0 :: _ =>
      if v0 == "" then .error (.abort400 (k ++ " argument couldn\x27t be empty"))
      else build_search_dict_go (dictSet acc k v0) rest

/-- Function `build_search_dict(**kwargs)` (lines 162-168). -/
def build_search_dict (kwargs : List (String × List String)) :
    Except Err (List (String × String)) :=
  build_search_dict_go [] kwargs

/-- Lines 183-186: `int(DEFAULT if not value else value)`; a falsy value
(absent or empty string) yields the default, anything else goes through
`int()`, whose failure is an uncaught `ValueError`. The list/tuple
first-element extraction of lines 183-184 is presumed already applied. -/
def effLimit (raw : Option String) (dflt : Int) : Except Err Int :=
  match raw with
  | none => .ok dflt
  | some s =>
    if s == "" then .ok dflt
    else
      match parsePyInt s with
      | some n => .ok n
      | none => .error (.valueError s)

/-- Line 218-219: `results.skip(int(search_dict['start']))` — the only
guard `'start'` ever saw is `build_search_dict`'s non-empty check, so a
non-integer value raises an uncaught `ValueError` here. -/
def applyStart (search_dict : List (String × String)) (found : List Person) :
    Except Err (List Person) :=
  match dictGet search_dict "start" with
  | some s =>
    match parsePyInt s with
    | some n => .ok (found.drop n.toNat)
    | none => .error (.valueError s)
  | none => .ok found

/-- Function `fsearch(max_results=None, db=None, max_count_results=None, **kwargs)`
(lines 171-222): resolve the limits (defaults `MAX_RESULTS` and
`MAX_COUNT_RESULTS`), build the search dict and the query, count the
matches (all of them when the count limit is `-1`, else with the limit
applied), then fetch under the projection, skip `start`, limit to
`max_results` and sanitize each record. -/
def fsearch (soundex : String → String) (currentYear threshold : Int)
    (persons : List Person) (max_results max_count_results : Option String)
    (kwargs : List (String × List String)) : Except Err (Int × List Person) :=
  match effLimit max_results MAX_RESULTS with
  | .error e => .error e
  | .ok mr =>
    match effLimit max_count_results MAX_COUNT_RESULTS with
    | .error e => .error e
    | .ok mc =>
      match build_search_dict kwargs with
      | .error e => .error e
      | .ok search_dict =>
        match build_query soundex search_dict with
        | .error e => .error e
        | .ok search_query =>
          let matching := persons.filter (queryMatches search_query)
          let total : Int :=
            if mc == -1 then (matching.length : Int)
            else ((matching.take mc.toNat).length : Int)
          let found := matching.map projectPerson
          match applyStart search_dict found with
          | .error e => .error e
          | .ok skipped =>
            .ok (total, (skipped.take mr.toNat).map (clean_person currentYear threshold))

/-! ## Stating devices for the place-suffix claims -/

/-- Whether a (lower-cased) names/places value carries the `;phonetic`
modifier, i.e. whether its second `';'` token is `"phonetic"`. -/
def isPhoneticArg (value : String) : Bool :=
  match pySplit value ';' with
  | _ :: modif :: _ => modif == "phonetic"
  | _ => false

/-- The suffix the compiler puts on place fields: `'S'` for a phonetic
match, `'_lc'` otherwise. -/
def placeSuffix (value : String) : String := if isPhoneticArg value then "S" else "_lc"

/-! ## Dictionary lemmas -/

theorem dictGet_dictSet_self {α : Type} (d : List (String × α)) (k : String) (v : α) :
    dictGet (dictSet d k v) k = some v := by
  induction d with
  | nil => simp [dictSet, dictGet]
  | cons hd t ih =>
    by_cases hh : hd.1 = k
    · simp [dictSet, dictGet, hh]
    · have hb : (hd.1 == k) = false := by simp [hh]
      simp [dictSet, dictGet, hb, ih]

theorem dictGet_dictSet_ne {α : Type} (d : List (String × α)) (k k' : String) (v : α)
    (h : k' ≠ k) : dictGet (dictSet d k' v) k = dictGet d k := by
  have hkb : (k' == k) = false := by simp [h]
  induction d with
  | nil => simp [dictSet, dictGet, hkb]
  | cons hd t ih =>
    by_cases hh : hd.1 = k'
    · have hb : (hd.1 == k') = true := by simp [hh]
      have hbk : (hd.1 == k) = false := by simp [hh, h]
      simp [dictSet, dictGet, hb, hbk, hkb]
    · have hb : (hd.1 == k') = false := by simp [hh]
      simp [dictSet, dictGet, hb, ih]

theorem dictGet_dictDel_ne {α : Type} (d : List (String × α)) (k k' : String)
    (h : k' ≠ k) : dictGet (dictDel d k') k = dictGet d k := by
  induction d with
  | nil => simp [dictDel, dictGet]
  | cons hd t ih =>
    by_cases hh : hd.1 = k'
    · have hb : (hd.1 == k') = true := by simp [hh]
      have hbk : (hd.1 == k) = false := by simp [hh, h]
      simp [dictDel, dictGet, hb, hbk]
    · have hb : (hd.1 == k') = false := by simp [hh]
      simp [dictDel, dictGet, hb, ih]

theorem all_filter_self {α : Type} (l : List α) (f : α → Bool) :
    (l.filter f).all f = true := by
  induction l with
  | nil => simp
  | cons hd t ih =>
    by_cases h : f hd = true
    · simp [List.filter, h, ih]
    · have hf : f hd = false := by
        cases hx : f hd <;> simp_all
      simp [List.filter, hf, ih]

theorem dictGet_renameStep_ne (p : Person) (a b k : String) (ha : a ≠ k) (hb : b ≠ k) :
    dictGet (renameStep p (a, b)) k = dictGet p k := by
  unfold renameStep
  cases hfind : dictGet p a with
  | none => rfl
  | some v =>
    simp only
    rw [dictGet_dictSet_ne _ _ _ _ hb, dictGet_dictDel_ne _ _ _ ha]

/-! ## Classification lemmas -/

theorem classifyStep_only_deceased (st : Classified) (kv : String × String) :
    (classifyStep st kv).only_deceased =
      ((pyEndsWith kv.1 "place" || pyIn "_year" kv.1) || st.only_deceased) := by
  simp only [classifyStep]
  by_cases h : (pyEndsWith kv.1 "place" || pyIn "_year" kv.1) = true
  · rw [if_pos h, h, Bool.true_or]
    split
    · rfl
    · split
      · rfl
      · split
        · split <;> rfl
        · split <;> rfl
  · have hf : (pyEndsWith kv.1 "place" || pyIn "_year" kv.1) = false := by
      cases hx : (pyEndsWith kv.1 "place" || pyIn "_year" kv.1) <;> simp_all
    rw [if_neg h, hf, Bool.false_or]
    split
    · rfl
    · split
      · rfl
      · split
        · split <;> rfl
        · split <;> rfl

theorem foldl_classifyStep_od (l : List (String × String)) (st : Classified)
    (h : st.only_deceased = true) : (l.foldl classifyStep st).only_deceased = true := by
  induction l generalizing st with
  | nil => exact h
  | cons hd t ih =>
    rw [List.foldl_cons]
    exact ih _ (by rw [classifyStep_only_deceased, h, Bool.or_true])

theorem classify_od_of_mem (sd : List (String × String)) (k v : String)
    (hmem : (k, v) ∈ sd) (hcond : (pyEndsWith k "place" || pyIn "_year" k) = true) :
    (classify sd).only_deceased = true := by
  unfold classify
  generalize (⟨[], [], none, none, false⟩ : Classified) = st
  induction sd generalizing st with
  | nil => cases hmem
  | cons hd t ih =>
    rw [List.foldl_cons]
    cases hmem with
    | head =>
      exact foldl_classifyStep_od _ _ (by rw [classifyStep_only_deceased]; simp [hcond])
    | tail _ hmem2 => exact ih hmem2 _

/-! ## Claim C5 -/

/-- C5: for every search parameter mapping containing at least one key
that ends in `'place'` or contains `'_year'`, a successfully compiled
filter expression contains the clause `deceased == true`. -/
theorem C5_deceased_clause (soundex : String → String) (sd : List (String × String))
    (q : Query) (k v : String) (hmem : (k, v) ∈ sd)
    (hcond : (pyEndsWith k "place" || pyIn "_year" k) = true)
    (hq : build_query soundex sd = .ok q) :
    dictGet q "deceased" = some (.atom (.vbool true)) := by
  unfold build_query at hq
  dsimp only at hq
  have hod := classify_od_of_mem sd k v hmem hcond
  cases h1 : resolveNamesPlaces soundex (classify sd).nap with
  | error e => rw [h1] at hq; cases hq
  | ok nap =>
    rw [h1] at hq
    cases h2 : resolveYears (classify sd).years with
    | error e => rw [h2] at hq; cases hq
    | ok years =>
      rw [h2] at hq
      simp only at hq
      set sq := assembleNap
        (match (classify sd).sex with
          | some s => if s == "" then assembleYears [("archived", .atom .existsFalse)] years
              else dictSet (assembleYears [("archived", .atom .existsFalse)] years) "sex"
                (.atom (.vstr s))
          | none => assembleYears [("archived", .atom .existsFalse)] years) nap with hsq
      cases h3 : addTreeNumber sd (classify sd).individual_id sq with
      | error e => rw [h3] at hq; cases hq
      | ok sq2 =>
        rw [h3] at hq
        rw [hod] at hq
        simp only [if_true, Except.ok.injEq, reduceIte] at hq
        rw [← hq]
        exact dictGet_dictSet_self _ _ _

/-- C5 witness: a `birth_place` parameter forces the `deceased == true`
clause in the compiled filter. -/
theorem C5_deceased_clause_witness :
    ("birth_place", "lodz") ∈ [("birth_place", "lodz")] ∧
      (pyEndsWith "birth_place" "place" || pyIn "_year" "birth_place") = true ∧
      build_query (fun s => s) [("birth_place", "lodz")] =
        .ok [("archived", .atom .existsFalse), ("BIRT_PLAC_lc", .atom (.vstr "lodz")),
             ("deceased", .atom (.vbool true))] ∧
      dictGet [("archived", QVal.atom .existsFalse), ("BIRT_PLAC_lc", .atom (.vstr "lodz")),
               ("deceased", .atom (.vbool true))] "deceased" = some (.atom (.vbool true)) :=
  ⟨by decide, by decide, by rfl,
   C5_deceased_clause (fun s => s) [("birth_place", "lodz")] _ "birth_place" "lodz"
     (by decide) (by decide) (by rfl)⟩

/-! ## Claim C1 -/

/-- C1: the claim (and the WARNING comment at fsearch.py line 150) says
that when `tree_number` is present every clause built from name, place,
year or sex parameters is discarded, leaving only `archived`, `tree_num`
and optionally `id`. Evaluating `build_query` on a search dict holding
both `last_name` and `tree_number` shows the code merely adds the
`tree_num` clause: the `name_lc.1` clause survives in the compiled
filter, contradicting the claim and the code's own comment. -/
theorem C1_tree_number_keeps_other_clauses :
    build_query (fun s => s) [("last_name", "Cohen"), ("tree_number", "7")] =
      .ok [("archived", .atom .existsFalse), ("name_lc.1", .atom (.vstr "cohen")),
           ("tree_num", .atom (.vint 7))] ∧
      dictGet [("archived", QVal.atom .existsFalse), ("name_lc.1", QVal.atom (.vstr "cohen")),
               ("tree_num", QVal.atom (.vint 7))] "name_lc.1" =
        some (.atom (.vstr "cohen")) :=
  ⟨by rfl, by rfl⟩

/-! ## Claim C2 -/

/-- C2 counterexample: the unrecognized key `'workplace'` ends in
`'place'`, so it enters the names-and-places bucket and the allow-list
lookup `ARGS_TO_INDEX['workplace']` raises `KeyError`: `build_query`
crashes rather than silently ignoring the key. -/
theorem C2_workplace_keyerror :
    build_query (fun s => s) [("workplace", "x")] = .error (.keyError "workplace") := by
  rfl

/-- C2 amended: an unrecognized key that does not end in `'name'` or
`'place'`, does not contain `'_year'`, and is none of `sex`,
`individual_id`, `tree_number`, is silently ignored: `build_query`
returns the filter holding only the implicit `archived` clause. -/
theorem C2_unrecognized_key_ignored (soundex : String → String) (k v : String)
    (hname : pyEndsWith k "name" = false) (hplace : pyEndsWith k "place" = false)
    (hyear : pyIn "_year" k = false) (hsex : (k == "sex") = false)
    (hiid : (k == "individual_id") = false) (htree : (k == "tree_number") = false) :
    build_query soundex [(k, v)] = .ok [("archived", .atom .existsFalse)] := by
  have hc : classify [(k, v)] = ⟨[], [], none, none, false⟩ := by
    simp only [classify, List.foldl, classifyStep, hname, hplace, hyear, hsex, hiid,
      Bool.or_self, Bool.false_or, Bool.or_false, Bool.false_eq_true, if_false, reduceIte]
  unfold build_query
  rw [hc]
  simp only [resolveNamesPlaces, resolveYears, assembleYears, assembleNap, List.foldl,
    addTreeNumber, dictGet, htree, Bool.false_eq_true, if_false, reduceIte]

/-- C2 witness: the plain unrecognized key `'foo'` is ignored. -/
theorem C2_unrecognized_key_ignored_witness :
    pyEndsWith "foo" "name" = false ∧ pyEndsWith "foo" "place" = false ∧
      pyIn "_year" "foo" = false ∧ ("foo" == "sex") = false ∧
      ("foo" == "individual_id") = false ∧ ("foo" == "tree_number") = false ∧
      build_query (fun s => s) [("foo", "bar")] = .ok [("archived", .atom .existsFalse)] :=
  ⟨by decide, by decide, by decide, by decide, by decide, by decide,
   C2_unrecognized_key_ignored (fun s => s) "foo" "bar" (by decide) (by decide)
     (by decide) (by decide) (by decide) (by decide)⟩

/-! ## Claim C3 -/

/-- C3 counterexample: the year value `"1900:-1"` parses as year 1900
with fudge factor `-1`; the compiled range is `min = 1901, max = 1899`,
violating the claimed invariant `min <= max`. -/
theorem C3_negative_fudge :
    build_query (fun s => s) [("birth_year", "1900:-1")] =
      .ok [("archived", .atom .existsFalse), ("birth_year", .atom (.range 1901 1899)),
           ("deceased", .atom (.vbool true))] ∧
      ¬((1901 : Int) ≤ 1899) :=
  ⟨by rfl, by decide⟩

/-- C3 amended: the compiled year range always satisfies `min = Y - F`
and `max = Y + F`, and `min <= max` holds whenever the fudge factor is
nonnegative (a negative fudge factor inverts the bounds). -/
theorem C3_year_range (y f : Int) :
    _generate_year_range y f = (y - f, y + f) ∧
      (0 ≤ f → (_generate_year_range y f).1 ≤ (_generate_year_range y f).2) :=
  ⟨rfl, fun h => by simp [_generate_year_range]; omega⟩

/-- C3 witness: year 1907 with fudge factor 2 gives the range
`[1905, 1909]` with `min <= max`. -/
theorem C3_year_range_witness :
    (0 : Int) ≤ 2 ∧ _generate_year_range 1907 2 = (1905, 1909) ∧
      (_generate_year_range 1907 2).1 ≤ (_generate_year_range 1907 2).2 :=
  ⟨by decide, by decide, (C3_year_range 1907 2).2 (by decide)⟩

/-! ## Claim C9 -/

/-- C9 counterexample: a bare non-numeric year aborts with message
`'Year must be an integer'`, not the `"Y:F"` message
`'Year and fudge factor must be integers'` the claim states. -/
theorem C9_bare_year_message :
    build_query (fun s => s) [("birth_year", "abc")] =
      .error (.abort400 "Year must be an integer") ∧
      "Year must be an integer" ≠ "Year and fudge factor must be integers" :=
  ⟨by rfl, by decide⟩

/-- C9 amended: a bare year value that does not parse as an integer
fails with `InvalidArgument` (abort 400) carrying the bare-year message
`'Year must be an integer'`, and no filter is produced. -/
theorem C9_bare_year_error (soundex : String → String) (s : String)
    (hcolon : pyHasChar s ':' = false) (hparse : parsePyInt s = none) :
    build_query soundex [("birth_year", s)] =
      .error (.abort400 "Year must be an integer") := by
  have hc : classify [("birth_year", s)] = ⟨[], [("birth_year", s)], none, none, true⟩ := rfl
  unfold build_query
  rw [hc]
  simp only [resolveNamesPlaces, resolveYears, resolveYear1, hcolon, hparse,
    Bool.false_eq_true, if_false, reduceIte]

/-- C9 witness: the bare year `"abc"` aborts with the bare-year message. -/
theorem C9_bare_year_error_witness :
    pyHasChar "abc" ':' = false ∧ parsePyInt "abc" = none ∧
      build_query (fun s => s) [("birth_year", "abc")] =
        .error (.abort400 "Year must be an integer") :=
  ⟨by decide, by decide, C9_bare_year_error (fun s => s) "abc" (by decide) (by decide)⟩

/-! ## Claim C7 -/

/-- C7: for every `first_name` value, with or without any `;modifier`
suffix, the compiled filter is exactly the implicit `archived` clause
plus an exact-match clause on the `name_lc.0` index field holding the
(lower-cased) portion of the value before the first `';'`; the modifier
is ignored and never produces a prefix or phonetic clause. -/
theorem C7_first_name_exact (soundex : String → String) (v : String) :
    build_query soundex [("first_name", v)] =
      .ok [("archived", .atom .existsFalse),
           ("name_lc.0", .atom (.vstr ((pySplit (pyLower v) ';').headD "")))] := by
  rfl

/-! ## build_query evaluation lemmas for a single names-and-places entry -/

theorem build_query_place_eval (soundex : String → String) (v k : String) (a : QAtom)
    (he : resolveEntry soundex "place" "filler_lc" (pyLower v) = (k, a)) :
    build_query soundex [("place", v)] =
      .ok (dictSet
        (dictSet [("archived", .atom .existsFalse)] "$or"
          (.orq [("BIRT_PLAC" ++ (if pyEndsWith k "S" then "S" else "_lc"), a),
                 ("MARR_PLAC" ++ (if pyEndsWith k "S" then "S" else "_lc"), a),
                 ("DEAT_PLAC" ++ (if pyEndsWith k "S" then "S" else "_lc"), a)]))
        "deceased" (.atom (.vbool true))) := by
  have hc : classify [("place", v)] = ⟨[("place", pyLower v)], [], none, none, true⟩ := rfl
  have hr : resolveNamesPlaces soundex [("place", pyLower v)] =
      .ok [("place", resolveEntry soundex "place" "filler_lc" (pyLower v))] := rfl
  unfold build_query
  rw [hc]
  dsimp only
  rw [hr, he]
  dsimp only [resolveYears, assembleYears, List.foldl, assembleNap, addTreeNumber, dictGet]
  rfl

theorem build_query_nap1_eval (soundex : String → String) (arg v field k : String) (a : QAtom)
    (hlook : dictGet ARGS_TO_INDEX arg = some field)
    (hplace : (arg == "place") = false)
    (htree : (arg == "tree_number") = false)
    (hclass : classify [(arg, v)] = ⟨[(arg, pyLower v)], [], none, none, true⟩)
    (he : resolveEntry soundex arg field (pyLower v) = (k, a)) :
    build_query soundex [(arg, v)] =
      .ok (dictSet (dictSet [("archived", .atom .existsFalse)] k (.atom a))
        "deceased" (.atom (.vbool true))) := by
  have hr : resolveNamesPlaces soundex [(arg, pyLower v)] =
      .ok [(arg, (k, a))] := by
    unfold resolveNamesPlaces
    rw [hlook, ← he]
    rfl
  unfold build_query
  rw [hclass]
  dsimp only
  rw [hr]
  dsimp only [resolveYears, assembleYears, List.foldl, assembleNap]
  rw [hplace]
  dsimp only [addTreeNumber, dictGet]
  rw [htree]
  rfl

/-- For any non-`first_name` argument whose resolved field carries the
`'_lc'` suffix, `resolveEntry` produces the field re-suffixed by
`placeSuffix` (phonetic `'S'` vs `'_lc'`) and a payload independent of
the field. -/
theorem resolveEntry_suffix (soundex : String → String) (value : String) :
    ∃ a : QAtom, ∀ arg base : String, (arg == "first_name") = false →
      pySplitHead (base ++ "_lc") "_lc" = base →
      resolveEntry soundex arg (base ++ "_lc") value = (base ++ placeSuffix value, a) := by
  cases hsplit : pySplit value ';' with
  | nil =>
    refine ⟨.vstr "", fun arg base hfirst hbase => ?_⟩
    unfold resolveEntry placeSuffix isPhoneticArg
    rw [hsplit, hfirst]
    rfl
  | cons s rest =>
    cases rest with
    | nil =>
      refine ⟨.vstr s, fun arg base hfirst hbase => ?_⟩
      unfold resolveEntry placeSuffix isPhoneticArg
      rw [hsplit, hfirst]
      rfl
    | cons m rest2 =>
      by_cases hm : m = "prefix"
      · subst hm
        refine ⟨.regexMatch s, fun arg base hfirst hbase => ?_⟩
        unfold resolveEntry placeSuffix isPhoneticArg
        rw [hsplit, hfirst]
        rfl
      · by_cases hp : m = "phonetic"
        · subst hp
          refine ⟨.vstr (soundex s), fun arg base hfirst hbase => ?_⟩
          unfold resolveEntry placeSuffix isPhoneticArg
          rw [hsplit, hfirst]
          have hmb : ("phonetic" == "prefix") = false := by decide
          rw [hbase]  -- hmm placement
          rfl
        · refine ⟨.vstr s, fun arg base hfirst hbase => ?_⟩
          have hmb1 : (m == "prefix") = false := by simp [hm]
          have hmb2 : (m == "phonetic") = false := by simp [hp]
          unfold resolveEntry placeSuffix isPhoneticArg
          rw [hsplit, hfirst]
          simp only [hmb1, hmb2, Bool.false_eq_true, if_false, reduceIte]
          rfl

/-! ## Claim C6 -/

/-- C6: a generic `place` parameter compiles to a `'$or'` disjunction
over exactly the three fields `BIRT_PLAC`, `MARR_PLAC`, `DEAT_PLAC`,
each suffixed `'S'` when the match is phonetic and `'_lc'` otherwise,
while `birth_place` / `marriage_place` / `death_place` parameters each
add a clause on their own single field only (the rest of the filter
being the implicit `archived` clause and the `deceased` clause that any
place search forces). -/
theorem C6_place_disjunction (soundex : String → String) (v : String) :
    ∃ a : QAtom,
      build_query soundex [("place", v)] =
        .ok [("archived", .atom .existsFalse),
             ("$or", .orq [("BIRT_PLAC" ++ placeSuffix (pyLower v), a),
                           ("MARR_PLAC" ++ placeSuffix (pyLower v), a),
                           ("DEAT_PLAC" ++ placeSuffix (pyLower v), a)]),
             ("deceased", .atom (.vbool true))] ∧
      build_query soundex [("birth_place", v)] =
        .ok [("archived", .atom .existsFalse),
             ("BIRT_PLAC" ++ placeSuffix (pyLower v), .atom a),
             ("deceased", .atom (.vbool true))] ∧
      build_query soundex [("marriage_place", v)] =
        .ok [("archived", .atom .existsFalse),
             ("MARR_PLAC" ++ placeSuffix (pyLower v), .atom a),
             ("deceased", .atom (.vbool true))] ∧
      build_query soundex [("death_place", v)] =
        .ok [("archived", .atom .existsFalse),
             ("DEAT_PLAC" ++ placeSuffix (pyLower v), .atom a),
             ("deceased", .atom (.vbool true))] := by
  obtain ⟨a, ha⟩ := resolveEntry_suffix soundex (pyLower v)
  have hsfx : placeSuffix (pyLower v) = "S" ∨ placeSuffix (pyLower v) = "_lc" := by
    unfold placeSuffix
    cases isPhoneticArg (pyLower v) <;> simp
  refine ⟨a, ?_, ?_, ?_, ?_⟩
  · have he := ha "place" "filler" (by decide) (by decide)
    rw [build_query_place_eval soundex v _ _ he]
    cases hsfx with
    | inl h => rw [h]; rfl
    | inr h => rw [h]; rfl
  · have he := ha "birth_place" "BIRT_PLAC" (by decide) (by decide)
    rw [build_query_nap1_eval soundex "birth_place" v ("BIRT_PLAC" ++ "_lc") _ a
      (by decide) (by decide) (by decide) rfl he]
    cases hsfx with
    | inl h => rw [h]; rfl
    | inr h => rw [h]; rfl
  · have he := ha "marriage_place" "MARR_PLAC" (by decide) (by decide)
    rw [build_query_nap1_eval soundex "marriage_place" v ("MARR_PLAC" ++ "_lc") _ a
      (by decide) (by decide) (by decide) rfl he]
    cases hsfx with
    | inl h => rw [h]; rfl
    | inr h => rw [h]; rfl
  · have he := ha "death_place" "DEAT_PLAC" (by decide) (by decide)
    rw [build_query_nap1_eval soundex "death_place" v ("DEAT_PLAC" ++ "_lc") _ a
      (by decide) (by decide) (by decide) rfl he]
    cases hsfx with
    | inl h => rw [h]; rfl
    | inr h => rw [h]; rfl

/-! ## Claim C4 -/

/-- C4: for a record the living-person predicate holds for — in
particular one with `deceased = false` and no `birth_year` — every key of
the sanitizer's output lies in `LIVING_PERSON_WHITELISTED_KEYS`. -/
theorem C4_living_whitelist (currentYear threshold : Int) (p : Person)
    (hdec : dictGet p "deceased" = some (.pbool false))
    (hby : dictGet p "birth_year" = none) :
    (clean_person currentYear threshold p).all
      (fun kv => LIVING_PERSON_WHITELISTED_KEYS.contains kv.1) = true := by
  have hdec1 : dictGet (dictDel p "_id") "deceased" = some (.pbool false) := by
    rw [dictGet_dictDel_ne _ _ _ (by decide)]; exact hdec
  have hby1 : dictGet (dictDel p "_id") "birth_year" = none := by
    rw [dictGet_dictDel_ne _ _ _ (by decide)]; exact hby
  have hd2 : dictGet (GEDCOM_RENAMES.foldl renameStep (dictDel p "_id")) "deceased" =
      some (.pbool false) := by
    simp only [GEDCOM_RENAMES, List.foldl]
    rw [dictGet_renameStep_ne _ _ _ _ (by decide) (by decide),
        dictGet_renameStep_ne _ _ _ _ (by decide) (by decide),
        dictGet_renameStep_ne _ _ _ _ (by decide) (by decide),
        dictGet_renameStep_ne _ _ _ _ (by decide) (by decide),
        dictGet_renameStep_ne _ _ _ _ (by decide) (by decide),
        dictGet_renameStep_ne _ _ _ _ (by decide) (by decide)]
    exact hdec1
  have hb2 : dictGet (GEDCOM_RENAMES.foldl renameStep (dictDel p "_id")) "birth_year" =
      none := by
    simp only [GEDCOM_RENAMES, List.foldl]
    rw [dictGet_renameStep_ne _ _ _ _ (by decide) (by decide),
        dictGet_renameStep_ne _ _ _ _ (by decide) (by decide),
        dictGet_renameStep_ne _ _ _ _ (by decide) (by decide),
        dictGet_renameStep_ne _ _ _ _ (by decide) (by decide),
        dictGet_renameStep_ne _ _ _ _ (by decide) (by decide),
        dictGet_renameStep_ne _ _ _ _ (by decide) (by decide)]
    exact hby1
  unfold clean_person
  dsimp only
  have hliving : is_living_person currentYear threshold
      (pGetBool (GEDCOM_RENAMES.foldl renameStep (dictDel p "_id")) "deceased")
      (pGetInt (GEDCOM_RENAMES.foldl renameStep (dictDel p "_id")) "birth_year") = true := by
    unfold pGetBool pGetInt
    rw [hd2, hb2]
    rfl
  rw [hliving]
  simp only [if_true, reduceIte]
  exact all_filter_self _ _

/-- C4 witness: a record with `deceased = false`, no `birth_year`, and
the non-whitelisted fields `_id` and `OCCU`, sanitizes to whitelisted
keys only. -/
theorem C4_living_whitelist_witness :
    dictGet [("_id", PVal.pstr "x"), ("deceased", PVal.pbool false), ("name", PVal.pstr "a"),
             ("OCCU", PVal.pstr "smith")] "deceased" = some (PVal.pbool false) ∧
      dictGet [("_id", PVal.pstr "x"), ("deceased", PVal.pbool false), ("name", PVal.pstr "a"),
               ("OCCU", PVal.pstr "smith")] "birth_year" = none ∧
      (clean_person 2016 100
          [("_id", PVal.pstr "x"), ("deceased", PVal.pbool false), ("name", PVal.pstr "a"),
           ("OCCU", PVal.pstr "smith")]).all
        (fun kv => LIVING_PERSON_WHITELISTED_KEYS.contains kv.1) = true :=
  ⟨by decide, by decide, C4_living_whitelist 2016 100 _ (by decide) (by decide)⟩

/-! ## Claim C8 -/

/-- C8 counterexample: with `max_results` omitted and 31 matching
records, `fsearch` returns a page of 30 records (the default
`MAX_RESULTS = 30`), not the claimed default page size of 15. -/
theorem C8_default_limit_30_not_15 :
    fsearch (fun s => s) 2016 100 (List.replicate 31 [("id", PVal.pint 1)]) none none [] =
      .ok (31, List.replicate 30 [("id", PVal.pint 1)]) ∧
      (List.replicate 30 ([("id", PVal.pint 1)] : Person)).length ≠ 15 :=
  ⟨by rfl, by decide⟩

/-- C8 amended: when the caller omits `max_results`, the returned page of
records is limited to the default `MAX_RESULTS = 30` (not 15). -/
theorem C8_page_bounded (soundex : String → String) (currentYear threshold : Int)
    (persons : List Person) (max_count_results : Option String)
    (kwargs : List (String × List String)) (total : Int) (page : List Person)
    (h : fsearch soundex currentYear threshold persons none max_count_results kwargs =
      .ok (total, page)) :
    page.length ≤ MAX_RESULTS.toNat := by
  unfold fsearch at h
  rw [show effLimit none MAX_RESULTS = .ok 30 from rfl] at h
  dsimp only at h
  cases h2 : effLimit max_count_results MAX_COUNT_RESULTS with
  | error e => rw [h2] at h; dsimp only at h; cases h
  | ok mc =>
    rw [h2] at h
    dsimp only at h
    cases h3 : build_search_dict kwargs with
    | error e => rw [h3] at h; dsimp only at h; cases h
    | ok sd =>
      rw [h3] at h
      dsimp only at h
      cases h4 : build_query soundex sd with
      | error e => rw [h4] at h; dsimp only at h; cases h
      | ok sq =>
        rw [h4] at h
        dsimp only at h
        cases h5 : applyStart sd ((persons.filter (queryMatches sq)).map projectPerson) with
        | error e => rw [h5] at h; dsimp only at h; cases h
        | ok skipped =>
          rw [h5] at h
          dsimp only at h
          injection h with h2
          have hp : page =
              (skipped.take (Int.toNat 30)).map (clean_person currentYear threshold) :=
            (congrArg Prod.snd h2).symm
          rw [hp, List.length_map]
          calc (skipped.take (Int.toNat 30)).length ≤ Int.toNat 30 :=
              List.length_take_le _ _
            _ ≤ MAX_RESULTS.toNat := by norm_num [MAX_RESULTS]

/-- C8 witness: 31 matching records, `max_results` omitted: the page
holds 30 records, within the default bound. -/
theorem C8_page_bounded_witness :
    fsearch (fun s => s) 2016 100 (List.replicate 31 [("name", PVal.pstr "a")]) none none [] =
      .ok (31, List.replicate 30 [("name", PVal.pstr "a")]) ∧
      (List.replicate 30 ([("name", PVal.pstr "a")] : Person)).length ≤ MAX_RESULTS.toNat :=
  ⟨by rfl,
   C8_page_bounded (fun s => s) 2016 100 (List.replicate 31 [("name", PVal.pstr "a")])
     none [] 31 (List.replicate 30 [("name", PVal.pstr "a")]) (by rfl)⟩

/-! ## Claim C10 -/

/-- C10: a non-empty `start` value that does not parse as an integer
makes `fsearch` raise an uncaught conversion error (`Err.valueError`,
Python's `ValueError` from `int()` at line 219), not the
`InvalidArgument` client error (`Err.abort400`) used for years, fudge
factors and tree numbers; the only validation `start` received before
`int()` is `build_search_dict`'s non-empty check. -/
theorem C10_start_uncaught (soundex : String → String) (currentYear threshold : Int)
    (persons : List Person) (s : String)
    (hne : (s == "") = false) (hparse : parsePyInt s = none) :
    fsearch soundex currentYear threshold persons none none [("start", [s])] =
      .error (.valueError s) ∧ ∀ msg : String, Err.valueError s ≠ Err.abort400 msg := by
  constructor
  · unfold fsearch
    rw [show effLimit none MAX_RESULTS = .ok 30 from rfl,
        show effLimit none MAX_COUNT_RESULTS = .ok (-1) from rfl]
    dsimp only
    have hsd : build_search_dict [("start", [s])] = .ok [("start", s)] := by
      unfold build_search_dict build_search_dict_go
      dsimp only
      rw [hne]
      rfl
    rw [hsd]
    dsimp only
    have hq : build_query soundex [("start", s)] = .ok [("archived", .atom .existsFalse)] := rfl
    rw [hq]
    dsimp only
    have hap : applyStart [("start", s)]
        ((persons.filter (queryMatches [("archived", .atom .existsFalse)])).map projectPerson) =
        .error (.valueError s) := by
      unfold applyStart
      rw [show dictGet [("start", s)] "start" = some s from rfl]
      dsimp only
      rw [hparse]
    rw [hap]
  · intro msg hcontra
    exact Err.noConfusion hcontra

/-- C10 witness: `start = "abc"` raises the uncaught conversion error. -/
theorem C10_start_uncaught_witness :
    ("abc" == "") = false ∧ parsePyInt "abc" = none ∧
      fsearch (fun x => x) 2016 100 [] none none [("start", ["abc"])] =
        .error (.valueError "abc") :=
  ⟨by decide, by decide,
   (C10_start_uncaught (fun x => x) 2016 100 [] "abc" (by decide) (by decide)).1⟩

end BhsFsearch
